import Mathlib

/-!
Shallow embedding of the Ansys CDB mesh importer (`src/mesh/cdb_io.C`,
`include/mesh/cdb_io.h`) of this libMesh fork, together with theorems that
settle the specification claims about it.

Modelling conventions, all taken from the C++ source:

* `std::map` is modelled as an association list in insertion order;
  `mapFind?` models `find`, `mapEmplace` models `emplace` (insert only when
  the key is absent), `mapAssign` models `m[k] = v`, and `mapIndexD` models a
  read through `operator[]`, which yields a value-initialized default when the
  key is missing.  For the member node-id map, reads through `operator[]`
  also insert the default entry; `mapIndexIns` models that.
* The input stream is modelled as a list of pre-tokenized lines.  A line is
  either a coordinate record that matches the `NBLOCK` node regex
  (`Line.nodeRec`), a line of whitespace-separated signed integers
  (`Line.ints`), or a comma-separated line (`Line.csv`).  The driver's
  keyword tests (`find("NBLOCK,6,SOLID") == 0`, `find("ET,") == 0`,
  `find("TYPE,") == 0`, `find("CMBLOCK,") != npos`) are expressed on the
  comma tokens.
* `operator>>` extraction of an `int` past the end of a record yields `0`
  (the C++11 behaviour of a failed extraction); `getF` models this.
* Node coordinates are carried as integers: no claim depends on coordinate
  arithmetic, only on which records exist and in what order.
* `int` values are modelled as `Int` and the `int` → `unsigned int`
  conversions applied at the node-id map and the dedup `std::set` are
  modelled with `Int.toNat`; all node ids appearing in the modelled runs are
  nonnegative and far below 2^32, where the two conversions agree.
-/

namespace CDB

/-- Model of `std::map::find`: first entry with the given key (keys are unique by
construction, entries are kept in insertion order). -/
def mapFind? {β : Type} (m : List (Nat × β)) (k : Nat) : Option β :=
  match m with
  | [] => none
  | (k', v) :: rest => if k = k' then some v else mapFind? rest k

/-- Model of `std::map::emplace`: insert only if the key is not already present. -/
def mapEmplace {β : Type} (m : List (Nat × β)) (k : Nat) (v : β) : List (Nat × β) :=
  if (mapFind? m k).isSome then m else m ++ [(k, v)]

/-- Model of `m[k] = v`: overwrite the entry if present, insert otherwise. -/
def mapAssign {β : Type} (m : List (Nat × β)) (k : Nat) (v : β) : List (Nat × β) :=
  match m with
  | [] => [(k, v)]
  | (k', v') :: rest => if k = k' then (k', v) :: rest else (k', v') :: mapAssign rest k v

/-- A read through `std::map::operator[]`: the stored value, or a
value-initialized default when the key is missing. -/
def mapIndexD {β : Type} [Inhabited β] (m : List (Nat × β)) (k : Nat) : β :=
  (mapFind? m k).getD default

/-- A read through `operator[]` on a `std::map<unsigned,unsigned>` that also
records the insertion of the value-initialized entry `(k, 0)` performed by
`operator[]` on a miss. -/
def mapIndexIns (m : List (Nat × Nat)) (k : Nat) : Nat × List (Nat × Nat) :=
  match mapFind? m k with
  | some v => (v, m)
  | none => (0, m ++ [(k, 0)])

/-- The libMesh element types reachable in `cdb_io.C`.  `EDGE2` is the
enumerator with value `0`, which is what a value-initialized
`libMesh::ElemType` holds; it is therefore the `default`. -/
inductive ElemType where
  | EDGE2
  | TET10
  | PYRAMID13
  | PRISM15
  | HEX20
  deriving DecidableEq, Repr

instance : Inhabited ElemType := ⟨ElemType.EDGE2⟩

/-- Model of `CDBIO::AnsysElementDefinition`: one vendor element family, with the
three parallel maps keyed by node count.  The default-constructed value has
empty maps (`ansys_type` and `dim` are uninitialized in the C++ default
constructor and never read on that path; the model uses `0`). -/
structure AnsysElementDefinition where
  ansys_type : Nat := 0
  dim : Nat := 0
  ansys_node_ordering_map : List (Nat × List Nat) := []
  ansys_to_libmesh_elem_type_map : List (Nat × ElemType) := []
  ansys_to_libmesh_elem_type_string_map : List (Nat × String) := []
  deriving DecidableEq, Repr

instance : Inhabited AnsysElementDefinition := ⟨{}⟩

/-- Model of `AnsysElementDefinition::add_elem_sub_mapping`: registers a
sub-definition under the key `ansys_node_ordering.size()` in all three maps,
via `emplace`. -/
def AnsysElementDefinition.add_elem_sub_mapping (d : AnsysElementDefinition) (ansys_node_ordering : List Nat)
    (elem_type : ElemType) (elem_type_string : String) : AnsysElementDefinition :=
  { d with
    ansys_node_ordering_map :=
      mapEmplace d.ansys_node_ordering_map ansys_node_ordering.length ansys_node_ordering,
    ansys_to_libmesh_elem_type_map :=
      mapEmplace d.ansys_to_libmesh_elem_type_map ansys_node_ordering.length elem_type,
    ansys_to_libmesh_elem_type_string_map :=
      mapEmplace d.ansys_to_libmesh_elem_type_string_map ansys_node_ordering.length
        elem_type_string }

def hex_ordering : List Nat := [3, 0, 1, 2, 7, 4, 5, 6, 11, 8, 9, 10, 19, 16, 17, 18, 15, 12, 13, 14]

def tet_ordering : List Nat := [2, 0, 1, 3, 6, 4, 5, 9, 7, 8]

def prism_ordering : List Nat := [2, 0, 1, 5, 3, 4, 8, 6, 7, 14, 12, 13, 11, 9, 10]

def pyramid_ordering : List Nat := [3, 0, 1, 2, 4, 8, 5, 6, 7, 12, 9, 10, 11]

/-- The ANSYS SOLID226 family built in `CDBIO::build_element_maps`. -/
def SOLID226 : AnsysElementDefinition :=
  ((((({ ansys_type := 226, dim := 3 } : AnsysElementDefinition).add_elem_sub_mapping
      hex_ordering ElemType.HEX20 "HEX20").add_elem_sub_mapping
      tet_ordering ElemType.TET10 "TET10").add_elem_sub_mapping
      prism_ordering ElemType.PRISM15 "PRISM15").add_elem_sub_mapping
      pyramid_ordering ElemType.PYRAMID13 "PYR13")

/-- Model of `CDBMaps::add_def`: an `emplace` keyed by `eledef.ansys_type`. -/
def add_def (em : List (Nat × AnsysElementDefinition)) (eledef : AnsysElementDefinition) :
    List (Nat × AnsysElementDefinition) :=
  mapEmplace em eledef.ansys_type eledef

/-- Model of `CDBIO::build_element_maps`: the static table holds exactly SOLID226. -/
def build_element_maps : List (Nat × AnsysElementDefinition) :=
  add_def [] SOLID226

/-- The static `CDBIO::_cdb_maps` table. -/
def cdb_maps : List (Nat × AnsysElementDefinition) := build_element_maps

/-- One line of the input stream, pre-tokenized.

* `nodeRec ansys_id d1 d2 x y z` — a line matching the `NBLOCK` node regex
  (three leading integers, three coordinates); the fields are the values
  extracted by `line_stream >> ansys_id >> dump1 >> dump2 >> x >> y >> z`.
* `ints vals` — a line of one or more whitespace-separated signed integers,
  as matched by the `CMBLOCK` record regex and as consumed by the element
  block's `stringstream` reads.
* `csv toks` — any other line, represented by its comma-separated tokens as
  produced by `tokenize` (keyword lines such as `ET,...`, `TYPE,...`,
  `NBLOCK,6,SOLID...`, `CMBLOCK,...`, block-name lines, and boilerplate). -/
inductive Line where
  | nodeRec (ansys_id d1 d2 : Nat) (x y z : Int)
  | ints (vals : List Int)
  | csv (toks : List String)
  deriving DecidableEq, Repr

/-- Tests that `p` is a prefix of `s`, i.e. `s.find(p) == 0`.  (The reducible analogue
of `String.startsWith`, expressed on the character lists.) -/
def strPre (p s : String) : Bool :=
  p.data.isPrefixOf s.data

def strHasSubAux (pat : List Char) : List Char → Bool
  | [] => pat.isEmpty
  | c :: rest => pat.isPrefixOf (c :: rest) || strHasSubAux pat rest

/-- Tests that `pat` occurs as a substring of `s`, i.e. `s.find(pat) != npos`. -/
def strHasSub (s pat : String) : Bool :=
  strHasSubAux pat.data s.data

/-- ASCII whitespace, as classified by `boost::algorithm::trim`. -/
def isWSChar (c : Char) : Bool :=
  c.toNat = 32 || c.toNat = 9 || c.toNat = 10 || c.toNat = 13

/-- Model of `boost::algorithm::trim`: strip whitespace from both ends. -/
def strTrim (s : String) : String :=
  ⟨((s.data.dropWhile isWSChar).reverse.dropWhile isWSChar).reverse⟩

def isDigitChar (c : Char) : Bool :=
  48 ≤ c.toNat && c.toNat ≤ 57

/-- Test `s.find("NBLOCK,6,SOLID") == 0`: the line starts with the three tokens
`NBLOCK`, `6`, and a token beginning with `SOLID`. -/
def isNBlockLine : Line → Bool
  | .csv ("NBLOCK" :: "6" :: t2 :: _) => strPre "SOLID" t2
  | _ => false

/-- Test `s.find("ET,") == 0`: the line starts with token `ET` followed by a comma. -/
def isETLine : Line → Bool
  | .csv ("ET" :: _ :: _) => true
  | _ => false

/-- Test `s.find("TYPE,") == 0`. -/
def isTYPELine : Line → Bool
  | .csv ("TYPE" :: _ :: _) => true
  | _ => false

/-- Test `s.find("CMBLOCK,") != npos`: the token `CMBLOCK` occurs with a comma
after it, i.e. at a non-final token position. -/
def isCMBLOCKLine : Line → Bool
  | .csv toks => toks.dropLast.contains "CMBLOCK"
  | _ => false

/-- Whether the line matches the `NBLOCK` coordinate-record regex. -/
def isNodeRec : Line → Bool
  | .nodeRec _ _ _ _ _ _ => true
  | _ => false

/-- The comma tokens of a line, as produced by `tokenize` (only keyword-style
lines are tokenized by the source; other kinds are never tokenized in the
modelled runs). -/
def lineTokens : Line → List String
  | .csv toks => toks
  | _ => []

/-- Reads `tokens[i]`; reading a missing token from the `std::vector` is undefined
in the C++ and never happens in the modelled runs — the model yields `""`. -/
def getTok (l : Line) (i : Nat) : String :=
  ((lineTokens l).get? i).getD ""

/-- Model of `std::stoi` on a well-formed numeric token: the value of the leading
run of decimal digits (the C++ throws on a token with no leading digits;
the modelled streams only contain well-formed tokens, so that branch is
dead and the model yields `0` there). -/
def stoi (s : String) : Nat :=
  (s.data.takeWhile isDigitChar).foldl (fun acc c => acc * 10 + (c.toNat - 48)) 0

/-- The signed integers extracted from a line by repeated `stringstream >>
int`.  Keyword lines start with a non-digit, so the first extraction fails
and (C++11) yields nothing; coordinate records never occur inside element or
group blocks in the modelled runs. -/
def lineInts : Line → List Int
  | .ints vals => vals
  | _ => []

/-- Extraction of the `i`-th integer field of a record: a failed extraction
(C++11) value-initializes the target to `0`. -/
def getF (vals : List Int) (i : Nat) : Int :=
  (vals.get? i).getD 0

def leadDigitAux : Nat → Nat → Nat
  | _, 0 => 0
  | n, fuel + 1 => if n < 10 then n else leadDigitAux (n / 10) fuel

/-- Leading decimal digit of a natural number (`n` itself is always enough
fuel, since dividing a number `≥ 10` by ten strictly decreases it). -/
def leadDigit (n : Nat) : Nat :=
  leadDigitAux n n

/-- Whether the decimal rendering of `v` contains the substring `"-1"`:
exactly when `v` is negative and its leading digit is `1`. -/
def intHasMinusOneSub (v : Int) : Bool :=
  v < 0 && leadDigit (-v).toNat == 1

/-- Test `s.find("-1") != npos`, the element-block terminator test, on the raw
line text.  For an integer record this is a negative value whose magnitude
leads with digit `1`; for a comma-tokenized line, a token containing `-1`. -/
def lineHasMinusOne : Line → Bool
  | .ints vals => vals.any intHasMinusOneSub
  | .csv toks => toks.any (fun t => strHasSub t "-1")
  | _ => false

/-- One imported element: its dense id (`iel`), libMesh type, subdomain
(partition) id, and the local node ids assigned by `set_node`. -/
structure ElemRec where
  id : Nat
  type : ElemType
  subdomain : Nat
  nodes : List Nat
  deriving DecidableEq, Repr

/-- The whole importer state: the destination mesh contents, the local
counters of `read_mesh`, and the member map
`CDBIO::ansys_to_libmesh_node_id_map`.  Counter defaults are the
initializations at the top of `read_mesh` (`ansys_element_type` is an
uninitialized `int` there; the model uses `0`, and every modelled stream
declares `ET` before its first element block except where the point is
precisely to observe that the variable is left untouched). -/
structure ImpState where
  id : Nat := 0
  iel : Nat := 0
  block_num : Nat := 1
  nodeset_id : Nat := 1
  ansys_element_type : Nat := 0
  nodeMap : List (Nat × Nat) := []
  points : List (Nat × Int × Int × Int) := []
  elems : List ElemRec := []
  subdomainNames : List (Nat × String) := []
  bnodes : List (Nat × Nat) := []
  nodesetNames : List (Nat × String) := []
  deriving DecidableEq, Repr

/-- The `NBLOCK` node loop (`while(std::regex_match(s, regexp))`): for each
matching line add a point at the next dense id, record `foreign → local` in
the member map (`operator[]` assignment, overwriting any earlier entry), and
increment the id.  The first non-matching line was already consumed by
`getline` when the loop exits and is **not** pushed back, so it is dropped:
the driver's next `getline` reads the line after it. -/
def nodeLoop : List Line → ImpState → List Line × ImpState
  | [], st => ([], st)
  | l :: rest, st =>
    match l with
    | .nodeRec ansys_id _ _ x y z =>
      nodeLoop rest
        { st with
          points := st.points ++ [(st.id, x, y, z)],
          nodeMap := mapAssign st.nodeMap ansys_id st.id,
          id := st.id + 1 }
    | _ => (rest, st)

/-- The `NBLOCK` branch: one garbage line is skipped (`getline`), then the
node loop runs on the following lines. -/
def nodeBlockHandler (lines : List Line) (st : ImpState) : List Line × ImpState :=
  match lines with
  | [] => ([], st)
  | _ :: rest => nodeLoop rest st

/-- The duplicate-removal loop over the `nodes` vector: walk the vector with
a `std::set` of already-seen values, erasing every later repetition, so the
first occurrence of each value survives in its original position.  (The C++
set holds `unsigned int`; all node ids in the modelled runs are nonnegative
and below 2^32, where `Int` equality agrees with the converted equality.) -/
def dedupFirstAux (seen : List Int) : List Int → List Int
  | [] => []
  | x :: rest =>
    if x ∈ seen then dedupFirstAux seen rest
    else x :: dedupFirstAux (x :: seen) rest

def dedupFirst (l : List Int) : List Int :=
  dedupFirstAux [] l

/-- The raw referenced node ids of one connectivity record: field 8 of the
record is the declared node count `n_cdb_nodes`, fields 11–18 are the first
eight node ids, and when the declared count exceeds 8 the remaining
`n_cdb_nodes - 8` ids are extracted from the continuation line. -/
def rawNodesOf (vals cont : List Int) : List Int :=
  (List.range 8).map (fun i => getF vals (11 + i)) ++
    (if getF vals 8 > 8 then
      (List.range (getF vals 8 - 8).toNat).map (fun i => getF cont i)
    else [])

/-- The node-assignment loop
`elem->set_node(i) = mesh.node_ptr(ansys_to_libmesh_node_id_map[nodes[elem_map[i]]])`
over the index list: each step reads slot `elem_map[i]`, fetches the foreign
id `nodes[elem_map[i]]`, and resolves it through the member map's
`operator[]` (which inserts a `0` entry on a miss).  Out-of-range vector
reads are undefined in the C++ and yield `0`/`default` in the model; for a
successfully resolved element they never occur (see the table invariant). -/
def resolveNodesAux (nodes : List Int) (elem_map : List Nat) :
    List Nat → List (Nat × Nat) → List Nat × List (Nat × Nat)
  | [], nmap => ([], nmap)
  | i :: is, nmap =>
    let slot := (elem_map.get? i).getD 0
    let foreign := ((nodes.get? slot).getD 0).toNat
    let r := mapIndexIns nmap foreign
    let rec' := resolveNodesAux nodes elem_map is r.2
    (r.1 :: rec'.1, rec'.2)

def resolveNodes (nmap : List (Nat × Nat)) (nodes : List Int) (elem_map : List Nat)
    (n : Nat) : List Nat × List (Nat × Nat) :=
  resolveNodesAux nodes elem_map (List.range n) nmap

/-- Processing of one connectivity record (the body of the element-block
`while(true)` after the terminator test): parse the raw node ids, dedup
them, use the deduplicated count for the three `operator[]` lookups in the
static table, push the type string on the first record, open a new partition
on a mid-block node-count change, build the element with the permuted and
remapped nodes, and append it to the mesh.  Returns
`(new prev_elem_nodes, block_elem_types, block_nums, state)`. -/
def processRecord (aet : Nat) (vals cont : List Int) (prev : Int)
    (bets : List String) (bnums : List Nat) (st : ImpState) :
    Int × List String × List Nat × ImpState :=
  let nodes := dedupFirst (rawNodesOf vals cont)
  let n_elem_nodes := nodes.length
  let eledef := mapIndexD cdb_maps aet
  let elem_map := mapIndexD eledef.ansys_node_ordering_map n_elem_nodes
  let elem_type := mapIndexD eledef.ansys_to_libmesh_elem_type_map n_elem_nodes
  let block_elem_type := mapIndexD eledef.ansys_to_libmesh_elem_type_string_map n_elem_nodes
  let bets := if prev = -1 then bets ++ [block_elem_type] else bets
  let block_num := if prev ≠ -1 ∧ prev ≠ (n_elem_nodes : Int) then st.block_num + 1 else st.block_num
  let bnums := if prev ≠ -1 ∧ prev ≠ (n_elem_nodes : Int) then bnums ++ [block_num] else bnums
  let bets := if prev ≠ -1 ∧ prev ≠ (n_elem_nodes : Int) then bets ++ [block_elem_type] else bets
  let r := resolveNodes st.nodeMap nodes elem_map n_elem_nodes
  let elem : ElemRec := { id := st.iel, type := elem_type, subdomain := block_num, nodes := r.1 }
  ((n_elem_nodes : Int), bets, bnums,
    { st with
      iel := st.iel + 1,
      block_num := block_num,
      nodeMap := r.2,
      elems := st.elems ++ [elem] })

/-- The element-block record loop: stop (consuming the line) when the line
contains `-1`; otherwise parse the record, reading one continuation line
exactly when the declared count exceeds 8, and continue with the updated
`prev_elem_nodes`.  (On a truncated stream the C++ would keep re-parsing an
empty `s` forever; the model stops at end of input, which no claim relies
on.) -/
def elemLoop (aet : Nat) : List Line → Int → List String → List Nat → ImpState →
    List Line × List String × List Nat × ImpState
  | [], _, bets, bnums, st => ([], bets, bnums, st)
  | l :: rest, prev, bets, bnums, st =>
    if lineHasMinusOne l then (rest, bets, bnums, st)
    else
      let vals := lineInts l
      if getF vals 8 > 8 then
        match rest with
        | [] =>
          let r := processRecord aet vals [] prev bets bnums st
          ([], r.2.1, r.2.2.1, r.2.2.2)
        | c :: rest' =>
          let r := processRecord aet vals (lineInts c) prev bets bnums st
          elemLoop aet rest' r.1 r.2.1 r.2.2.1 r.2.2.2
      else
        let r := processRecord aet vals [] prev bets bnums st
        elemLoop aet rest r.1 r.2.1 r.2.2.1 r.2.2.2

/-- The block-naming loop after the terminator: for each opened partition id
`block_nums[it]`, set its subdomain name to `<block_name>_<type string>`.
`block_nums` and `block_elem_types` always have equal length (one entry at
block start resp. first record, one more each on every mid-block change), so
the positional indexing is total and equals the zip. -/
def assignNames (names : List (Nat × String)) (bnums : List Nat) (bets : List String)
    (block_name : String) : List (Nat × String) :=
  (bnums.zip bets).foldl (fun acc p => mapAssign acc p.1 (block_name ++ "_" ++ p.2)) names

/-- The `TYPE,` branch: skip the `EBLOCK` line and the format line, run the
record loop starting at the third line, then read the block-name line, trim
token 1, assign the composite subdomain names, and increment `block_num`.
(When the stream ends before a name line, `getline` fails and leaves `s`
empty; `tokens[1]` is then out of range in the C++ — the model names with
`""` — no modelled stream does this.) -/
def typeHandler (lines : List Line) (st : ImpState) : List Line × ImpState :=
  let r := elemLoop st.ansys_element_type (lines.drop 2) (-1) [] [st.block_num] st
  let st' := r.2.2.2
  match r.1 with
  | [] =>
    ([], { st' with
           subdomainNames := assignNames st'.subdomainNames r.2.2.1 r.2.1 "",
           block_num := st'.block_num + 1 })
  | nameLine :: rest =>
    let block_name := strTrim (getTok nameLine 1)
    (rest, { st' with
             subdomainNames := assignNames st'.subdomainNames r.2.2.1 r.2.1 block_name,
             block_num := st'.block_num + 1 })

/-- The integers `lo, lo+1, ..., hi-1` (`for(int range = lower; range < upper;
range++)`); empty when `hi ≤ lo`. -/
def rangeInts (lo hi : Int) : List Int :=
  (List.range (hi - lo).toNat).map (fun k => lo + (k : Int))

/-- One `current_line >> node` step of the `CMBLOCK` record loop: push the
value; when it is negative, replace it by its absolute value, take the
second-to-last entry of the accumulated vector as the lower bound, and push
every integer from the lower bound up to (excluding) the upper bound.  (When
the negative value is the very first entry of the vector the C++ reads one
slot before the buffer — undefined; the model then reads the entry itself,
producing an empty range.  No modelled stream does this.) -/
def expandStep (nodes : List Int) (v : Int) : List Int :=
  let nodes := nodes ++ [v]
  if v < 0 then
    let nodes := nodes.dropLast ++ [-v]
    let upper := -v
    let lower := (nodes.get? (nodes.length - 2)).getD 0
    nodes ++ rangeInts lower upper
  else nodes

/-- The `CMBLOCK` record loop: while the line matches the nodeset regex (a
line of signed integers), read up to 8 integers from it with range
expansion; the first non-matching line ends the loop and `in.seekg(prev_line)`
rewinds to its start, so it is re-presented to the driver. -/
def cmLoop : List Line → List Int → List Line × List Int
  | [], nodes => ([], nodes)
  | l :: rest, nodes =>
    match l with
    | .ints vals => cmLoop rest ((vals.take 8).foldl expandStep nodes)
    | _ => (l :: rest, nodes)

/-- The registration loop `mesh.get_boundary_info().add_node(...)`: each
collected id is resolved through the member map's `operator[]` (inserting a
`0` entry on a miss) and added to the nodeset. -/
def cmRegister (nsid : Nat) : List Int → List (Nat × Nat) → List (Nat × Nat) →
    List (Nat × Nat) × List (Nat × Nat)
  | [], bnodes, nmap => (bnodes, nmap)
  | node :: ns, bnodes, nmap =>
    let r := mapIndexIns nmap node.toNat
    cmRegister nsid ns (bnodes ++ [(r.1, nsid)]) r.2

/-- The `CMBLOCK,` branch: token 1 of the header is the trimmed nodeset
name (token 3, the declared member count, is parsed into
`n_nodeset_nodes` but never used afterwards).  One boilerplate line is
skipped by the first `getline`; the second `getline` reads the line that
the `while` loop regex-tests first, so the record loop starts at the second
line after the header.  The loop collects the ids, every id is registered
under the current nodeset id, the nodeset is named, and the id counter
advances. -/
def cmHandler (l : Line) (lines : List Line) (st : ImpState) : List Line × ImpState :=
  let nodeset_name := strTrim (getTok l 1)
  let p := cmLoop (lines.drop 1) []
  let r := cmRegister st.nodeset_id p.2 st.bnodes st.nodeMap
  (p.1, { st with
          bnodes := r.1,
          nodeMap := r.2,
          nodesetNames := mapAssign st.nodesetNames st.nodeset_id nodeset_name,
          nodeset_id := st.nodeset_id + 1 })

/-- The driver loop of `read_mesh`: read a line, classify it in source
order (`NBLOCK,6,SOLID` prefix, `ET,` prefix, `TYPE,` prefix, `CMBLOCK,`
substring), dispatch to the matching handler, and skip anything else; stop
at end of stream.  The `ET,` branch performs one extra `getline` whose
result is immediately overwritten by the loop-top `getline`, so the line
after an `ET` line is dropped.  `fuel` bounds the iteration count; every
iteration consumes at least one line, so `lines.length + 1` is always
enough. -/
def driver : Nat → List Line → ImpState → ImpState
  | 0, _, st => st
  | _ + 1, [], st => st
  | fuel + 1, l :: rest, st =>
    if isNBlockLine l then
      let r := nodeBlockHandler rest st
      driver fuel r.1 r.2
    else if isETLine l then
      driver fuel (rest.drop 1) { st with ansys_element_type := stoi (getTok l 2) }
    else if isTYPELine l then
      let r := typeHandler rest st
      driver fuel r.1 r.2
    else if isCMBLOCKLine l then
      let r := cmHandler l rest st
      driver fuel r.1 r.2
    else
      driver fuel rest st

/-- Model of `CDBIO::read_mesh`: clear the destination mesh, initialize the local
counters (`id = 0`, `iel = 0`, `block_num = 1`, `nodeset_id = 1`), and run
the driver loop.  The member map `ansys_to_libmesh_node_id_map` is **not**
cleared: whatever it contains from a previous `read` call is carried in. -/
def read_mesh (memberMap : List (Nat × Nat)) (lines : List Line) : ImpState :=
  driver (lines.length + 1) lines { nodeMap := memberMap }

/-- Number of changes between consecutive entries of a list. -/
def transitions : List Nat → Nat
  | [] => 0
  | [_] => 0
  | a :: b :: rest => (if a ≠ b then 1 else 0) + transitions (b :: rest)

/-- The effective node count of a single-line record: the size of the
deduplicated node vector. -/
def effCountOfLine (l : Line) : Nat :=
  (dedupFirst (rawNodesOf (lineInts l) [])).length

/-- Whether a line is an integer record. -/
def isIntsLine : Line → Bool
  | .ints _ => true
  | _ => false

/-- A 20-node HEX20 connectivity record (19 fields: 8 administrative fields,
declared count 20, one discarded field, element id, first 8 node ids). -/
def hexRecVals : List Int := [1, 1, 1, 1, 1, 1, 1, 0, 20, 0, 1, 1, 2, 3, 4, 5, 6, 7, 8]

/-- Continuation line of `hexRecVals`: the remaining 12 node ids. -/
def hexContVals : List Int := [9, 10, 11, 12, 13, 14, 15, 16, 17, 18, 19, 20]

/-- A degenerate record: declared count 20, but the 20 referenced ids repeat
so only 10 distinct nodes remain after deduplication (a TET10 written in the
20-slot layout, the vendor quirk the importer tolerates). -/
def tetRecVals : List Int := [1, 1, 1, 1, 1, 1, 1, 0, 20, 0, 2, 1, 2, 3, 4, 1, 2, 3, 4]

def tetContVals : List Int := [5, 6, 7, 8, 9, 10, 5, 6, 7, 8, 9, 10]

/-- A 20-node record referencing foreign ids 21–40, none of which are
declared by any coordinate block of the streams that use it. -/
def hexRec21Vals : List Int := [1, 1, 1, 1, 1, 1, 1, 0, 20, 0, 1, 21, 22, 23, 24, 25, 26, 27, 28]

def hexCont21Vals : List Int := [29, 30, 31, 32, 33, 34, 35, 36, 37, 38, 39, 40]

/-- Stream for C8: a single coordinate block declaring foreign ids 7 and 5. -/
def streamA : List Line :=
  [Line.csv ["NBLOCK", "6", "SOLID"], Line.csv ["fmt"],
   Line.nodeRec 7 0 0 0 0 0, Line.nodeRec 5 0 0 1 0 0]

/-- Stream for C8: a single group block referencing foreign id 5, with no
coordinate block of its own (one boilerplate line after the header; the
record line is the one the group loop regex-tests first). -/
def streamB : List Line :=
  [Line.csv ["CMBLOCK", "NS1", "NODE", "1"], Line.csv ["g1"],
   Line.ints [5]]

/-- Stream for C1: an `ET` declaration with the unregistered code 999
followed by an element block with one 20-node record. -/
def streamC1 : List Line :=
  [Line.csv ["ET", "1", "999"], Line.csv ["filler"],
   Line.csv ["TYPE", "1"], Line.csv ["eblock"], Line.csv ["format"],
   Line.ints hexRecVals, Line.ints hexContVals, Line.ints [-1],
   Line.csv ["X", "BLK"]]

/-- Stream for C2: a coordinate block declaring foreign ids 10, 11, 12, then
an element block whose record references the undeclared foreign ids 21–40.
The line after the last coordinate record is dropped by the node loop, so a
sacrificial boilerplate line precedes the `TYPE` keyword. -/
def streamC2 : List Line :=
  [Line.csv ["ET", "1", "226"], Line.csv ["filler"],
   Line.csv ["NBLOCK", "6", "SOLID"], Line.csv ["fmt"],
   Line.nodeRec 10 0 0 0 0 0, Line.nodeRec 11 0 0 1 0 0, Line.nodeRec 12 0 0 2 0 0,
   Line.csv ["sacrifice"],
   Line.csv ["TYPE", "1"], Line.csv ["eblock"], Line.csv ["format"],
   Line.ints hexRec21Vals, Line.ints hexCont21Vals, Line.ints [-1],
   Line.csv ["X", "BLK2"]]

/-- Stream for C3: a coordinate block in which foreign id 7 appears on two
matching node lines. -/
def streamC3 : List Line :=
  [Line.csv ["NBLOCK", "6", "SOLID"], Line.csv ["fmt"],
   Line.nodeRec 7 0 0 0 0 0, Line.nodeRec 7 1 1 1 2 3]

/-- Stream for C6: element code 226, one element block whose records'
effective node counts alternate 20, 10, 20. -/
def streamC6 : List Line :=
  [Line.csv ["ET", "1", "226"], Line.csv ["filler"],
   Line.csv ["TYPE", "1"], Line.csv ["eblock"], Line.csv ["format"],
   Line.ints hexRecVals, Line.ints hexContVals,
   Line.ints tetRecVals, Line.ints tetContVals,
   Line.ints hexRecVals, Line.ints hexContVals,
   Line.ints [-1], Line.csv ["X", "MYBLOCK"]]

/-- Stream for C9: `ET,1,226` is processed, then a coordinate block is read;
the line ending the coordinate block is a would-be `ET,1,999` declaration. -/
def streamC9 : List Line :=
  [Line.csv ["ET", "1", "226"], Line.csv ["filler"],
   Line.csv ["NBLOCK", "6", "SOLID"], Line.csv ["fmt"],
   Line.nodeRec 1 0 0 0 0 0,
   Line.csv ["ET", "1", "999"]]

/-- Two single-line records with declared counts 4 and 8 (effective counts
5 and 8 after the always-read eight node fields are deduplicated), used to
instantiate the partition-count theorem. -/
def recsW : List Line :=
  [Line.ints [0, 0, 0, 0, 0, 0, 0, 0, 4, 0, 1, 1, 2, 3, 4, 0, 0, 0, 0],
   Line.ints [0, 0, 0, 0, 0, 0, 0, 0, 8, 0, 2, 5, 6, 7, 8, 9, 10, 11, 12]]

theorem cdb_maps_eq : cdb_maps = [(226, SOLID226)] := by decide

theorem mapFind?_nil {β : Type} (k : Nat) : mapFind? ([] : List (Nat × β)) k = none := rfl

theorem mapFind?_cons {β : Type} (k' : Nat) (v : β) (m : List (Nat × β)) (k : Nat) :
    mapFind? ((k', v) :: m) k = if k = k' then some v else mapFind? m k := rfl

/-- After `m[k] = v`, looking up `k` yields `v`. -/
theorem mapFind?_mapAssign_self {β : Type} (m : List (Nat × β)) (k : Nat) (v : β) :
    mapFind? (mapAssign m k v) k = some v := by
  induction m with
  | nil => simp [mapAssign, mapFind?]
  | cons p rest ih =>
    obtain ⟨k', v'⟩ := p
    by_cases h : k = k'
    · simp [mapAssign, mapFind?, h]
    · simp [mapAssign, mapFind?, h, ih]

theorem dedupFirstAux_sublist (l : List Int) :
    ∀ seen, (dedupFirstAux seen l).Sublist l := by
  induction l with
  | nil => intro seen; simp [dedupFirstAux]
  | cons x rest ih =>
    intro seen
    by_cases h : x ∈ seen
    · simpa [dedupFirstAux, h] using (ih seen).cons x
    · simpa [dedupFirstAux, h] using (ih (x :: seen)).cons₂ x

theorem dedupFirstAux_nodup (l : List Int) :
    ∀ seen, (dedupFirstAux seen l).Nodup ∧ ∀ x ∈ dedupFirstAux seen l, x ∉ seen := by
  induction l with
  | nil => intro seen; simp [dedupFirstAux]
  | cons y rest ih =>
    intro seen
    by_cases h : y ∈ seen
    · simpa [dedupFirstAux, h] using ih seen
    · obtain ⟨hnd, hmem⟩ := ih (y :: seen)
      refine ⟨?_, ?_⟩
      · simp only [dedupFirstAux, h, if_false, List.nodup_cons]
        exact ⟨fun hc => (hmem y hc) (List.mem_cons_self y seen), hnd⟩
      · intro x hx
        simp only [dedupFirstAux, h, if_false, List.mem_cons] at hx
        rcases hx with rfl | hx
        · exact h
        · exact fun hc => (hmem x hx) (List.mem_cons_of_mem y hc)

theorem mem_dedupFirstAux (l : List Int) :
    ∀ seen x, x ∈ dedupFirstAux seen l ↔ x ∈ l ∧ x ∉ seen := by
  induction l with
  | nil => intro seen x; simp [dedupFirstAux]
  | cons y rest ih =>
    intro seen x
    by_cases h : y ∈ seen
    · simp only [dedupFirstAux, h, if_true, ih, List.mem_cons]
      constructor
      · rintro ⟨hx, hs⟩; exact ⟨Or.inr hx, hs⟩
      · rintro ⟨hx | hx, hs⟩
        · exact absurd (hx ▸ h) hs
        · exact ⟨hx, hs⟩
    · simp only [dedupFirstAux, h, if_false, List.mem_cons, ih]
      constructor
      · rintro (rfl | ⟨hx, hs⟩)
        · exact ⟨Or.inl rfl, h⟩
        · exact ⟨Or.inr hx, fun hc => hs (Or.inr hc)⟩
      · rintro ⟨rfl | hx, hs⟩
        · exact Or.inl rfl
        · by_cases hxy : x = y
          · exact Or.inl hxy
          · exact Or.inr ⟨hx, fun hc => hc.elim hxy hs⟩

theorem dedupFirstAux_congr (l : List Int) :
    ∀ s1 s2, (∀ a ∈ l, a ∈ s1 ↔ a ∈ s2) → dedupFirstAux s1 l = dedupFirstAux s2 l := by
  induction l with
  | nil => intro s1 s2 _; rfl
  | cons y rest ih =>
    intro s1 s2 hs
    have hy := hs y (List.mem_cons_self y rest)
    by_cases h : y ∈ s1
    · have h2 : y ∈ s2 := hy.mp h
      simp only [dedupFirstAux, h, h2, if_true]
      exact ih s1 s2 (fun a ha => hs a (List.mem_cons_of_mem y ha))
    · have h2 : y ∉ s2 := fun hc => h (hy.mpr hc)
      simp only [dedupFirstAux, h, h2, if_false]
      refine congrArg (y :: ·) (ih (y :: s1) (y :: s2) ?_)
      intro a ha
      simp [hs a (List.mem_cons_of_mem y ha)]

theorem dedupFirstAux_filter (l : List Int) :
    ∀ seen a, a ∈ seen →
      dedupFirstAux seen (l.filter (fun y => y != a)) = dedupFirstAux seen l := by
  induction l with
  | nil => intro seen a _; rfl
  | cons y rest ih =>
    intro seen a ha
    by_cases hya : y = a
    · subst hya
      simp only [List.filter_cons, bne_self_eq_false, if_false, Bool.false_eq_true]
      simp only [dedupFirstAux, ha, if_true]
      exact ih seen y ha
    · have : (y != a) = true := by simp [hya]
      simp only [List.filter_cons, this, if_true]
      by_cases h : y ∈ seen
      · simp only [dedupFirstAux, h, if_true]
        exact ih seen a ha
      · simp only [dedupFirstAux, h, if_false]
        exact congrArg (y :: ·) (ih (y :: seen) a (List.mem_cons_of_mem y ha))

/-- The first-occurrence recurrence: deduplication keeps the head and then
deduplicates the tail with all later copies of the head removed. -/
theorem dedupFirst_cons (x : Int) (xs : List Int) :
    dedupFirst (x :: xs) = x :: dedupFirst (xs.filter (fun y => y != x)) := by
  show dedupFirstAux [] (x :: xs) = x :: dedupFirstAux [] (xs.filter (fun y => y != x))
  simp only [dedupFirstAux, List.not_mem_nil, if_false]
  refine congrArg (x :: ·) ?_
  rw [← dedupFirstAux_filter xs [x] x (List.mem_cons_self x [])]
  refine dedupFirstAux_congr _ [x] [] ?_
  intro a ha
  have : a ≠ x := by
    have := List.of_mem_filter ha
    simpa using this
  simp [this]

/-- The function `processRecord` reports the deduplicated node count as the new
`prev_elem_nodes`. -/
theorem processRecord_fst (aet : Nat) (vals cont : List Int) (prev : Int)
    (bets : List String) (bnums : List Nat) (st : ImpState) :
    (processRecord aet vals cont prev bets bnums st).1 =
      ((dedupFirst (rawNodesOf vals cont)).length : Int) := rfl

/-- The list `block_nums` grows by exactly one entry on a mid-block node-count
change, and is left unchanged otherwise. -/
theorem processRecord_bnums (aet : Nat) (vals cont : List Int) (prev : Int)
    (bets : List String) (bnums : List Nat) (st : ImpState) :
    (processRecord aet vals cont prev bets bnums st).2.2.1 =
      if prev ≠ -1 ∧ prev ≠ ((dedupFirst (rawNodesOf vals cont)).length : Int)
      then bnums ++ [st.block_num + 1] else bnums := by
  by_cases h : prev ≠ -1 ∧ prev ≠ ((dedupFirst (rawNodesOf vals cont)).length : Int) <;>
    simp [processRecord, h]

/-- Every record unconditionally appends exactly one element to the mesh:
there is no failing branch in the element construction. -/
theorem processRecord_elems (aet : Nat) (vals cont : List Int) (prev : Int)
    (bets : List String) (bnums : List Nat) (st : ImpState) :
    (processRecord aet vals cont prev bets bnums st).2.2.2.elems =
      st.elems ++
        [{ id := st.iel,
           type := mapIndexD (mapIndexD cdb_maps aet).ansys_to_libmesh_elem_type_map
             (dedupFirst (rawNodesOf vals cont)).length,
           subdomain := (processRecord aet vals cont prev bets bnums st).2.2.2.block_num,
           nodes := (resolveNodes st.nodeMap (dedupFirst (rawNodesOf vals cont))
             (mapIndexD (mapIndexD cdb_maps aet).ansys_node_ordering_map
               (dedupFirst (rawNodesOf vals cont)).length)
             (dedupFirst (rawNodesOf vals cont)).length).1 }] := by
  by_cases h : prev ≠ -1 ∧ prev ≠ ((dedupFirst (rawNodesOf vals cont)).length : Int) <;>
    simp [processRecord, h]

/-- A line containing `-1` terminates the record loop, consuming the line. -/
theorem elemLoop_cons_term (aet : Nat) (l : Line) (rest : List Line) (prev : Int)
    (bets : List String) (bnums : List Nat) (st : ImpState)
    (h : lineHasMinusOne l = true) :
    elemLoop aet (l :: rest) prev bets bnums st = (rest, bets, bnums, st) := by
  simp [elemLoop, h]

/-- A record line with declared count at most 8 is processed without a
continuation line. -/
theorem elemLoop_cons_simple (aet : Nat) (vals : List Int) (rest : List Line) (prev : Int)
    (bets : List String) (bnums : List Nat) (st : ImpState)
    (h1 : lineHasMinusOne (Line.ints vals) = false) (h2 : getF vals 8 ≤ 8) :
    elemLoop aet (Line.ints vals :: rest) prev bets bnums st =
      elemLoop aet rest
        (processRecord aet vals [] prev bets bnums st).1
        (processRecord aet vals [] prev bets bnums st).2.1
        (processRecord aet vals [] prev bets bnums st).2.2.1
        (processRecord aet vals [] prev bets bnums st).2.2.2 := by
  have h3 : ¬ (getF vals 8 > 8) := by omega
  simp [elemLoop, h1, h3, lineInts]

/-- Auxiliary partition-count invariant: once the previous node count is a
genuine count `p` (not the initial `-1`), running the record loop over
single-line records followed by the terminator leaves `block_nums` enlarged
by exactly the number of node-count changes in `p :: effective counts`. -/
theorem elemLoop_count_aux (aet : Nat) (rest : List Line) (recs : List Line) :
    ∀ (p : Nat) (bets : List String) (bnums : List Nat) (st : ImpState),
      (∀ l ∈ recs, isIntsLine l = true ∧ lineHasMinusOne l = false ∧ getF (lineInts l) 8 ≤ 8) →
      (elemLoop aet (recs ++ Line.ints [-1] :: rest) (p : Int) bets bnums st).2.2.1.length
          = bnums.length + transitions (p :: recs.map effCountOfLine)
      ∧ (elemLoop aet (recs ++ Line.ints [-1] :: rest) (p : Int) bets bnums st).1 = rest := by
  induction recs with
  | nil =>
    intro p bets bnums st _
    rw [List.nil_append, elemLoop_cons_term aet _ rest _ bets bnums st (by decide)]
    simp [transitions]
  | cons l recs' ih =>
    intro p bets bnums st h
    obtain ⟨hints, hm1, hle⟩ := h l (List.mem_cons_self l _)
    cases l with
    | nodeRec a d1 d2 x y z => simp [isIntsLine] at hints
    | csv toks => simp [isIntsLine] at hints
    | ints vals =>
      have hle' : getF vals 8 ≤ 8 := by simpa [lineInts] using hle
      rw [List.cons_append,
        elemLoop_cons_simple aet vals (recs' ++ Line.ints [-1] :: rest) (p : Int)
          bets bnums st hm1 hle',
        processRecord_fst]
      obtain ⟨ih1, ih2⟩ := ih (dedupFirst (rawNodesOf vals [])).length
        (processRecord aet vals [] (p : Int) bets bnums st).2.1
        (processRecord aet vals [] (p : Int) bets bnums st).2.2.1
        (processRecord aet vals [] (p : Int) bets bnums st).2.2.2
        (fun l hl => h l (List.mem_cons_of_mem _ hl))
      refine ⟨?_, ih2⟩
      rw [ih1, processRecord_bnums]
      have heff : effCountOfLine (Line.ints vals) = (dedupFirst (rawNodesOf vals [])).length := by
        simp [effCountOfLine, lineInts]
      by_cases hpe : p = (dedupFirst (rawNodesOf vals [])).length
      · have hcond : ¬((p : Int) ≠ -1 ∧
            (p : Int) ≠ ((dedupFirst (rawNodesOf vals [])).length : Int)) := by
          simp [hpe]
        rw [if_neg hcond]
        simp [transitions, heff, hpe]
      · have hcond : (p : Int) ≠ -1 ∧
            (p : Int) ≠ ((dedupFirst (rawNodesOf vals [])).length : Int) := by
          constructor
          · omega
          · exact fun hc => hpe (by exact_mod_cast hc)
        rw [if_pos hcond]
        simp only [List.map_cons, transitions, heff, List.length_append, List.length_cons,
          List.length_nil, hpe, ne_eq, not_false_eq_true, if_true]
        omega

/-- C4: for every coordinate block, the node loop creates exactly one point
per line of the maximal matching-record run, and the local ids of the
created points extend the already-assigned ids by the dense consecutive
range starting at the running node counter (`List.range' st.id k`); since
`read_mesh` starts the counter at `0` and the counter is threaded through
all blocks of one import, the local ids form a dense 0-based monotonically
increasing range in file order across the whole import. -/
theorem C4_dense_local_ids (lines : List Line) : ∀ st : ImpState,
    (nodeLoop lines st).2.points.length
        = st.points.length + (lines.takeWhile isNodeRec).length
    ∧ (nodeLoop lines st).2.points.map Prod.fst
        = st.points.map Prod.fst ++ List.range' st.id (lines.takeWhile isNodeRec).length
    ∧ (nodeLoop lines st).2.id = st.id + (lines.takeWhile isNodeRec).length := by
  induction lines with
  | nil => intro st; simp [nodeLoop]
  | cons l rest ih =>
    intro st
    cases l with
    | nodeRec a d1 d2 x y z =>
      obtain ⟨ih1, ih2, ih3⟩ := ih
        { st with
          points := st.points ++ [(st.id, x, y, z)],
          nodeMap := mapAssign st.nodeMap a st.id,
          id := st.id + 1 }
      refine ⟨?_, ?_, ?_⟩
      · simp only [nodeLoop, ih1]
        simp [List.takeWhile, isNodeRec]
        omega
      · simp only [nodeLoop, ih2]
        simp [List.takeWhile, isNodeRec, List.range'_succ]
      · simp only [nodeLoop, ih3]
        simp [List.takeWhile, isNodeRec]
        omega
    | ints vals =>
      simp [nodeLoop, List.takeWhile, isNodeRec]
    | csv toks =>
      simp [nodeLoop, List.takeWhile, isNodeRec]

/-- C10: in the static element table every sub-definition is registered
under the length of its own permutation vector, so a successful ordering
lookup at effective node count `n` returns a permutation with exactly `n`
slots; consequently every index `i < n` used by the node-assignment loop is
in range for the permutation. -/
theorem C10_perm_length_matches_key (code : Nat) (ed : AnsysElementDefinition)
    (n : Nat) (perm : List Nat)
    (h1 : mapFind? cdb_maps code = some ed)
    (h2 : mapFind? ed.ansys_node_ordering_map n = some perm) :
    perm.length = n ∧ ∀ i, i < n → i < perm.length := by
  rw [cdb_maps_eq, mapFind?_cons] at h1
  by_cases hc : code = 226
  case neg => rw [if_neg hc, mapFind?_nil] at h1; exact Option.noConfusion h1
  rw [if_pos hc] at h1
  injection h1 with h1
  subst h1
  have hmap : SOLID226.ansys_node_ordering_map =
      [(20, hex_ordering), (10, tet_ordering), (15, prism_ordering), (13, pyramid_ordering)] := by
    decide
  rw [hmap, mapFind?_cons] at h2
  by_cases h20 : n = 20
  · rw [if_pos h20] at h2
    injection h2 with h2
    subst h2; subst h20
    refine ⟨by decide, fun i hi => ?_⟩
    have hlen : hex_ordering.length = 20 := by decide
    omega
  rw [if_neg h20, mapFind?_cons] at h2
  by_cases h10 : n = 10
  · rw [if_pos h10] at h2
    injection h2 with h2
    subst h2; subst h10
    refine ⟨by decide, fun i hi => ?_⟩
    have hlen : tet_ordering.length = 10 := by decide
    omega
  rw [if_neg h10, mapFind?_cons] at h2
  by_cases h15 : n = 15
  · rw [if_pos h15] at h2
    injection h2 with h2
    subst h2; subst h15
    refine ⟨by decide, fun i hi => ?_⟩
    have hlen : prism_ordering.length = 15 := by decide
    omega
  rw [if_neg h15, mapFind?_cons] at h2
  by_cases h13 : n = 13
  · rw [if_pos h13] at h2
    injection h2 with h2
    subst h2; subst h13
    refine ⟨by decide, fun i hi => ?_⟩
    have hlen : pyramid_ordering.length = 13 := by decide
    omega
  rw [if_neg h13, mapFind?_nil] at h2
  exact Option.noConfusion h2

/-- Witness for C10 at the concrete pair (code 226, node count 20). -/
theorem C10_perm_length_matches_key_witness :
    hex_ordering.length = 20 ∧ ∀ i, i < 20 → i < hex_ordering.length :=
  C10_perm_length_matches_key 226 SOLID226 20 hex_ordering (by decide) (by decide)

/-- Counterexample to C1: code 999 is not registered in the static table,
yet importing a block declared with `ET,1,999` does not fail — the
`operator[]` lookups yield value-initialized defaults and an element is
still created, with the value-initialized element type (`EDGE2`, enum value
0), contradicting "in neither case is an element created". -/
theorem C1_counterexample :
    mapFind? cdb_maps 999 = none
    ∧ (read_mesh [] streamC1).elems.map (fun e => (e.id, e.type))
        = [(0, ElemType.EDGE2)] :=
  ⟨by decide, by decide⟩

/-- C1 amended: the `(code, node count)` lookup cannot fail.  When the type
map resolved through `operator[]` has no entry for the effective node count
— which covers both an unregistered code (the `operator[]` read of
`_cdb_maps` yields a default definition with empty maps) and a registered
code with an unmatched count — the record is still turned into exactly one
new element whose type is the value-initialized `ElemType` (`EDGE2`). -/
theorem C1_lookup_never_fails (aet : Nat) (vals cont : List Int) (prev : Int)
    (bets : List String) (bnums : List Nat) (st : ImpState)
    (h : mapFind? (mapIndexD cdb_maps aet).ansys_to_libmesh_elem_type_map
        (dedupFirst (rawNodesOf vals cont)).length = none) :
    (processRecord aet vals cont prev bets bnums st).2.2.2.elems.length
        = st.elems.length + 1
    ∧ ((processRecord aet vals cont prev bets bnums st).2.2.2.elems.getLast?).map
        (fun e => e.type) = some ElemType.EDGE2 := by
  rw [processRecord_elems]
  refine ⟨by simp, ?_⟩
  rw [List.getLast?_concat]
  have : mapIndexD (mapIndexD cdb_maps aet).ansys_to_libmesh_elem_type_map
      (dedupFirst (rawNodesOf vals cont)).length = ElemType.EDGE2 := by
    rw [mapIndexD, h]
    rfl
  simp [this]

/-- Witness for C1 at the unregistered code 999 and the 20-node record. -/
theorem C1_lookup_never_fails_witness :
    mapFind? (mapIndexD cdb_maps 999).ansys_to_libmesh_elem_type_map
        (dedupFirst (rawNodesOf hexRecVals hexContVals)).length = none
    ∧ (processRecord 999 hexRecVals hexContVals (-1) [] [1]
        ({} : ImpState)).2.2.2.elems.length = 0 + 1 :=
  ⟨by decide,
   (C1_lookup_never_fails 999 hexRecVals hexContVals (-1) [] [1] {} (by decide)).1⟩

/-- Counterexample to C2: `streamC2` declares only the foreign node ids
10, 11, 12, while its element block references the never-declared foreign
ids 21–40.  The import does not fail with any `UnresolvedNodeReference`:
the element is created with every reference resolved to local node id 0
(the value default-inserted by `operator[]`), and the member map gains a
`21 ↦ 0` entry. -/
theorem C2_counterexample :
    (read_mesh [] streamC2).points.length = 3
    ∧ (read_mesh [] streamC2).elems.map (fun e => (e.type, e.nodes))
        = [(ElemType.HEX20, List.replicate 20 0)]
    ∧ mapFind? (read_mesh [] streamC2).nodeMap 21 = some 0 :=
  ⟨by decide, by decide, by decide⟩

/-- C2 amended: a foreign node id absent from the map does not abort the
import; the `operator[]` resolution yields local id 0 and inserts the
`(foreign, 0)` entry, and every connectivity record still produces exactly
one element. -/
theorem C2_unresolved_defaults_to_zero (nmap : List (Nat × Nat)) (foreign : Nat)
    (h : mapFind? nmap foreign = none) :
    resolveNodes nmap [(foreign : Int)] [0] 1 = ([0], nmap ++ [(foreign, 0)])
    ∧ ∀ (aet : Nat) (vals cont : List Int) (prev : Int) (bets : List String)
        (bnums : List Nat) (st : ImpState),
        (processRecord aet vals cont prev bets bnums st).2.2.2.elems.length
          = st.elems.length + 1 := by
  constructor
  · simp [resolveNodes, resolveNodesAux, mapIndexIns, h]
  · intro aet vals cont prev bets bnums st
    rw [processRecord_elems]
    simp

/-- Witness for C2 at the unmapped foreign id 5 over the empty map. -/
theorem C2_unresolved_defaults_to_zero_witness :
    resolveNodes [] [(5 : Int)] [0] 1 = ([0], [(5, 0)])
    ∧ (processRecord 226 hexRecVals hexContVals (-1) [] [1]
        ({} : ImpState)).2.2.2.elems.length = 0 + 1 :=
  ⟨(C2_unresolved_defaults_to_zero [] 5 (by decide)).1,
   (C2_unresolved_defaults_to_zero [] 5 (by decide)).2 226 hexRecVals hexContVals
     (-1) [] [1] {}⟩

/-- Counterexample to C3: in `streamC3` the foreign id 7 appears on two
matching coordinate lines; the import does not fail — both lines produce
points, and the map entry for 7 is silently overwritten with the second
local id. -/
theorem C3_counterexample :
    (read_mesh [] streamC3).points.length = 2
    ∧ (read_mesh [] streamC3).nodeMap = [(7, 1)] :=
  ⟨by decide, by decide⟩

/-- C3 amended: a repeated foreign node id does not fail the import; the
node loop processes both records (two points are created) and the second
`m[ansys_id] = id` assignment overwrites the first, so the map resolves the
foreign id to the local id of its last occurrence. -/
theorem C3_duplicate_overwrites (a d1 d2 d1' d2' : Nat) (x y z x' y' z' : Int)
    (st : ImpState) :
    mapFind?
        (nodeLoop [Line.nodeRec a d1 d2 x y z, Line.nodeRec a d1' d2' x' y' z'] st).2.nodeMap
        a
      = some (st.id + 1)
    ∧ (nodeLoop [Line.nodeRec a d1 d2 x y z, Line.nodeRec a d1' d2' x' y' z'] st).2.points.length
      = st.points.length + 2 := by
  constructor
  · show mapFind? (mapAssign (mapAssign st.nodeMap a st.id) a (st.id + 1)) a
      = some (st.id + 1)
    exact mapFind?_mapAssign_self _ a _
  · simp [nodeLoop]

/-- C5: the group-block record `1 2 4 -6` is expanded by the range loop to
the vector `[1, 2, 4, 6, 4, 5]` (the lower bound is pushed again by the
`for` loop), whose member set is exactly `{1, 2, 4, 5, 6}`. -/
theorem C5_range_expansion :
    (cmLoop [Line.ints [1, 2, 4, -6]] []).2 = [1, 2, 4, 6, 4, 5]
    ∧ (cmLoop [Line.ints [1, 2, 4, -6]] []).2.toFinset = ({1, 2, 4, 5, 6} : Finset ℤ) :=
  ⟨by decide, by decide⟩

/-- C7: the per-record deduplication keeps the first occurrence of every
referenced node id in its original relative order (it is a duplicate-free
sublist with the same members, satisfying the first-occurrence recurrence),
and the element type is looked up at the deduplicated count: the concrete
record `tetRecVals` declares 20 nodes but deduplicates to 10, and the
element built from it is a `TET10`, not a `HEX20`. -/
theorem C7_dedup_effective_count (l : List Int) :
    (dedupFirst l).Sublist l
    ∧ (dedupFirst l).Nodup
    ∧ (∀ x, x ∈ dedupFirst l ↔ x ∈ l)
    ∧ (∀ x xs, dedupFirst (x :: xs) = x :: dedupFirst (xs.filter (fun y => y != x)))
    ∧ getF tetRecVals 8 = 20
    ∧ (dedupFirst (rawNodesOf tetRecVals tetContVals)).length = 10
    ∧ (processRecord 226 tetRecVals tetContVals (-1) [] [1]
        ({} : ImpState)).2.2.2.elems.map (fun e => e.type) = [ElemType.TET10] := by
  refine ⟨dedupFirstAux_sublist l [], (dedupFirstAux_nodup l []).1, ?_,
    fun x xs => dedupFirst_cons x xs, by decide, by decide, by decide⟩
  intro x
  have := mem_dedupFirstAux l [] x
  simpa using this

/-- Counterexample to C6: in `streamC6` the element block's effective node
counts alternate 20, 10, 20 (two transitions), producing three partitions as
the claim states — but partitions 1 and 3 both resolve to `HEX20`, so their
composite names `MYBLOCK_HEX20` coincide: the names are *not* pairwise
distinct. -/
theorem C6_counterexample :
    (read_mesh [] streamC6).subdomainNames
        = [(1, "MYBLOCK_HEX20"), (2, "MYBLOCK_TET10"), (3, "MYBLOCK_HEX20")]
    ∧ ¬ ((read_mesh [] streamC6).subdomainNames.map Prod.snd).Nodup :=
  ⟨by decide, by decide⟩

/-- C6 amended: an element block produces exactly (number of node-count
transitions between consecutive records) plus one partitions, and each
partition is named `<block_name>_<topology_name>` — partitions whose
resolved topology coincides share the same composite name, so the names
need not be distinct (as the concrete alternating block shows). -/
theorem C6_partition_count (aet : Nat) (recs rest : List Line) (st : ImpState)
    (h : ∀ l ∈ recs,
      isIntsLine l = true ∧ lineHasMinusOne l = false ∧ getF (lineInts l) 8 ≤ 8) :
    (elemLoop aet (recs ++ Line.ints [-1] :: rest) (-1) [] [st.block_num] st).2.2.1.length
        = transitions (recs.map effCountOfLine) + 1
    ∧ (elemLoop aet (recs ++ Line.ints [-1] :: rest) (-1) [] [st.block_num] st).1 = rest
    ∧ (read_mesh [] streamC6).subdomainNames.map Prod.snd
        = ["MYBLOCK_HEX20", "MYBLOCK_TET10", "MYBLOCK_HEX20"] := by
  have main :
      (elemLoop aet (recs ++ Line.ints [-1] :: rest) (-1) [] [st.block_num] st).2.2.1.length
          = transitions (recs.map effCountOfLine) + 1
      ∧ (elemLoop aet (recs ++ Line.ints [-1] :: rest) (-1) [] [st.block_num] st).1 = rest := by
    cases recs with
    | nil =>
      rw [List.nil_append, elemLoop_cons_term aet _ rest _ _ _ st (by decide)]
      simp [transitions]
    | cons l recs' =>
      obtain ⟨hints, hm1, hle⟩ := h l (List.mem_cons_self l _)
      cases l with
      | nodeRec a d1 d2 x y z => simp [isIntsLine] at hints
      | csv toks => simp [isIntsLine] at hints
      | ints vals =>
        have hle' : getF vals 8 ≤ 8 := by simpa [lineInts] using hle
        rw [List.cons_append,
          elemLoop_cons_simple aet vals (recs' ++ Line.ints [-1] :: rest) (-1)
            [] [st.block_num] st hm1 hle',
          processRecord_fst]
        have hb : (processRecord aet vals [] (-1) [] [st.block_num] st).2.2.1
            = [st.block_num] := by
          rw [processRecord_bnums]
          simp
        obtain ⟨a1, a2⟩ := elemLoop_count_aux aet rest recs'
          (dedupFirst (rawNodesOf vals [])).length
          (processRecord aet vals [] (-1) [] [st.block_num] st).2.1
          (processRecord aet vals [] (-1) [] [st.block_num] st).2.2.1
          (processRecord aet vals [] (-1) [] [st.block_num] st).2.2.2
          (fun q hq => h q (List.mem_cons_of_mem _ hq))
        rw [hb] at a1
        refine ⟨?_, a2⟩
        rw [hb, a1]
        have heff : effCountOfLine (Line.ints vals)
            = (dedupFirst (rawNodesOf vals [])).length := by
          simp [effCountOfLine, lineInts]
        simp only [List.map_cons, heff, List.length_cons, List.length_nil]
        omega
  exact ⟨main.1, main.2, by decide⟩

/-- Witness for C6 at the two-record block with effective counts 5 and 8. -/
theorem C6_partition_count_witness :
    (elemLoop 226 (recsW ++ Line.ints [-1] :: []) (-1) [] [({} : ImpState).block_num]
        ({} : ImpState)).2.2.1.length = transitions (recsW.map effCountOfLine) + 1 :=
  (C6_partition_count 226 recsW [] {} (by decide)).1

/-- Counterexample to C8: reading `streamA` leaves `7 ↦ 0, 5 ↦ 1` in the
member map; a second `read` of `streamB` on the same object resolves the
group reference to foreign id 5 through that stale entry (local id 1),
whereas a fresh importer resolves it to the default-inserted 0 — the second
read *is* affected by the first. -/
theorem C8_counterexample :
    (read_mesh (read_mesh [] streamA).nodeMap streamB).bnodes
        ≠ (read_mesh [] streamB).bnodes := by
  decide

/-- C8 amended: every `read` call clears the destination mesh and restarts
all local counters (node, element, partition, and nodeset ids), but the
foreign-to-local node id map is an instance member that is never cleared:
the import starts from whatever map `m` the previous call left and merely
adds to it, so a second read can be affected by the first. -/
theorem C8_member_map_persists (m : List (Nat × Nat)) :
    (read_mesh m streamA).points = [(0, 0, 0, 0), (1, 1, 0, 0)]
    ∧ (read_mesh m streamA).id = 2
    ∧ (read_mesh m streamA).iel = 0
    ∧ (read_mesh m streamA).block_num = 1
    ∧ (read_mesh m streamA).nodeset_id = 1
    ∧ (read_mesh m streamA).elems = []
    ∧ (read_mesh m streamA).nodeMap = mapAssign (mapAssign m 7 0) 5 1 :=
  ⟨rfl, rfl, rfl, rfl, rfl, rfl, rfl⟩

/-- Counterexample to C9: in `streamC9` the line ending the coordinate
block is the declaration `ET,1,999`.  Were it re-classified as the next
block's start line, the element-type state would become 999; the run leaves
it at 226 (from the declaration before the block), because the node loop
consumed the line and the driver's next `getline` moved past it — while the
same `ET,1,999` line, when actually presented to the driver, does set the
state to 999. -/
theorem C9_counterexample :
    (read_mesh [] streamC9).ansys_element_type = 226
    ∧ (read_mesh [] [Line.csv ["ET", "1", "999"]]).ansys_element_type = 999 :=
  ⟨by decide, by decide⟩

/-- C9 amended: when the coordinate-block loop meets a non-matching line,
the block ends but the non-matching line has already been consumed and is
dropped — the driver resumes at the line *after* it, not at the
non-matching line itself. -/
theorem C9_nonmatching_line_dropped (recs : List Line) (l : Line) (rest : List Line)
    (h2 : isNodeRec l = false) :
    ∀ st : ImpState, (∀ r ∈ recs, isNodeRec r = true) →
      (nodeLoop (recs ++ l :: rest) st).1 = rest := by
  induction recs with
  | nil =>
    intro st _
    cases l with
    | nodeRec a d1 d2 x y z => simp [isNodeRec] at h2
    | ints vals => simp [nodeLoop]
    | csv toks => simp [nodeLoop]
  | cons r recs' ih =>
    intro st h1
    have hr := h1 r (List.mem_cons_self r _)
    cases r with
    | ints vals => simp [isNodeRec] at hr
    | csv toks => simp [isNodeRec] at hr
    | nodeRec a d1 d2 x y z =>
      simp only [List.cons_append, nodeLoop]
      exact ih _ (fun q hq => h1 q (List.mem_cons_of_mem _ hq))

/-- Witness for C9: one matching record followed by the non-matching
`ET,1,999` line; the handler hands the driver the lines after that line. -/
theorem C9_nonmatching_line_dropped_witness :
    isNodeRec (Line.csv ["ET", "1", "999"]) = false
    ∧ (nodeLoop ([Line.nodeRec 1 0 0 0 0 0] ++ Line.csv ["ET", "1", "999"] :: [Line.csv ["next"]])
        ({} : ImpState)).1 = [Line.csv ["next"]] :=
  ⟨by decide,
   C9_nonmatching_line_dropped [Line.nodeRec 1 0 0 0 0 0] (Line.csv ["ET", "1", "999"])
     [Line.csv ["next"]] (by decide) {} (by decide)⟩

end CDB
